import Mathlib

/-
Verification of the command/action management core of the cutefishos
videoplayer (src/src/application.cpp): the lazily-populated action
registry (Application::action / Application::setupActions), the custom
command store (Application::createUserAction /
Application::setupUserActions), the shortcut-store merge
(KActionCollection::readSettings, modelled from the spec), the worker
thread teardown (Application::setupWorkerThread) and the MPRIS service
registration in the Application constructor.

Machine integers do not overflow in any of the modelled code paths, so
key combinations are plain naturals; key-value config stores are
association lists; each registry operation additionally records an event
log so that ordering and frame properties are statable.
-/

set_option autoImplicit false

namespace VideoPlayer

/- Qt key and modifier codes used by the action catalog; combinations are
   formed with + exactly as in the source (for example
   Qt::CTRL + Qt::Key_Q). -/

namespace Qt

def SHIFT : Nat := 0x02000000
def CTRL : Nat := 0x04000000
def ALT : Nat := 0x08000000
def Key_0 : Nat := 0x30
def Key_1 : Nat := 0x31
def Key_2 : Nat := 0x32
def Key_3 : Nat := 0x33
def Key_4 : Nat := 0x34
def Key_5 : Nat := 0x35
def Key_6 : Nat := 0x36
def Key_7 : Nat := 0x37
def Key_8 : Nat := 0x38
def Key_9 : Nat := 0x39
def Key_D : Nat := 0x44
def Key_F : Nat := 0x46
def Key_H : Nat := 0x48
def Key_J : Nat := 0x4a
def Key_L : Nat := 0x4c
def Key_M : Nat := 0x4d
def Key_O : Nat := 0x4f
def Key_P : Nat := 0x50
def Key_Q : Nat := 0x51
def Key_R : Nat := 0x52
def Key_S : Nat := 0x53
def Key_X : Nat := 0x58
def Key_Z : Nat := 0x5a
def Key_Comma : Nat := 0x2c
def Key_Period : Nat := 0x2e
def Key_Plus : Nat := 0x2b
def Key_Minus : Nat := 0x2d
def Key_BracketLeft : Nat := 0x5b
def Key_BracketRight : Nat := 0x5d
def Key_Escape : Nat := 0x01000000
def Key_Backspace : Nat := 0x01000003
def Key_Left : Nat := 0x01000012
def Key_Up : Nat := 0x01000013
def Key_Right : Nat := 0x01000014
def Key_Down : Nat := 0x01000015
def Key_PageUp : Nat := 0x01000016
def Key_PageDown : Nat := 0x01000017
def Key_F1 : Nat := 0x01000030
def Key_Menu : Nat := 0x01000055

end Qt

/-- A live action object (class HAction, a QAction subclass): display
text, optional icon, compiled-in default shortcut and the currently
effective shortcut. A freshly constructed HAction has no icon and no
shortcuts. -/
structure HAction where
  text : String
  icon : Option String
  defaultShortcut : Option Nat
  effectiveShortcut : Option Nat
deriving DecidableEq

/-- HAction as built by `new HAction()` followed by `setText(text)`. -/
def mkPlainAction (text : String) : HAction :=
  { text := text, icon := none, defaultShortcut := none, effectiveShortcut := none }

/-- One entry of the compiled-in catalog of static actions: the id
tested by the if-chain in Application::setupActions, the label, the
optional icon and the default shortcut passed to setDefaultShortcut. -/
structure CatalogEntry where
  id : String
  text : String
  icon : Option String
  shortcut : Nat
deriving DecidableEq

/-- The live action collection (KActionCollection m_collection), keyed
by action id; at most one action per id. -/
abbrev Collection := List (String × HAction)

/-- KActionCollection::action(name): the action registered under
`name`, if any. -/
def collectionAction : Collection → String → Option HAction
  | [], _ => none
  | (k, a) :: rest, name => if k = name then some a else collectionAction rest name

/-- KActionCollection::addAction(name, action): registers `a` under
`name`, replacing any action previously registered under that id. -/
def collectionAdd : Collection → String → HAction → Collection
  | [], name, a => [(name, a)]
  | (k, b) :: rest, name, a =>
      if k = name then (k, a) :: rest else (k, b) :: collectionAdd rest name a

/-- The persisted Shortcut Store (KConfigGroup m_shortcuts): action id
to stored key combination. -/
abbrev ShortcutStore := List (String × Nat)

/-- Lookup of an action id in the persisted Shortcut Store. -/
def storeLookup : ShortcutStore → String → Option Nat
  | [], _ => none
  | (k, v) :: rest, name => if k = name then some v else storeLookup rest name

/-- One group of the custom-commands config file: the group name and its
string entries (fields Command, Type, ...). -/
structure ConfigGroup where
  name : String
  entries : List (String × String)
deriving DecidableEq

/-- KConfigGroup::readEntry(key, QString()): value of `key` in the
group, or the empty string when absent. -/
def groupReadEntry (g : ConfigGroup) (key : String) : String :=
  go g.entries
where
  go : List (String × String) → String
    | [] => ""
    | (k, v) :: rest => if k = key then v else go rest

/-- The persisted custom-commands config: the Counter entry of the
default group (absent when never written) and the named groups returned
by groupList(). -/
structure CustomCommandsConfig where
  counter : Option Nat
  groups : List ConfigGroup
deriving DecidableEq

/-- readEntry("Counter", 0) on the default group of the custom-commands
config. -/
def readCounter (cfg : CustomCommandsConfig) : Nat :=
  cfg.counter.getD 0

/-- Observable registry events: an addAction call (with the added
action's id and text), and a readSettings pass over the Shortcut
Store. -/
inductive Event where
  | add (id : String) (text : String)
  | readShortcuts
deriving DecidableEq

/-- The application state visible to the registry operations: the live
collection, the persisted Shortcut Store (m_shortcuts), the persisted
custom-commands config, and the log of registry events performed so
far. -/
structure AppState where
  collection : Collection
  shortcuts : ShortcutStore
  customCommands : CustomCommandsConfig
  log : List Event
deriving DecidableEq

/-- m_collection.addAction(name, action), logged. -/
def addAction (st : AppState) (name : String) (a : HAction) : AppState :=
  { st with
      collection := collectionAdd st.collection name a
      log := st.log ++ [Event.add name a.text] }

/-- The effective shortcut an action ends up with after a readSettings
pass: the stored override when its id is present in the Shortcut Store,
its compiled-in default otherwise. -/
def resolveShortcut (store : ShortcutStore) (name : String) (a : HAction) : HAction :=
  { a with effectiveShortcut :=
      match storeLookup store name with
      | some v => some v
      | none => a.defaultShortcut }

/-- Modelled from the spec: KActionCollection::readSettings(m_shortcuts)
is KDE framework code absent from src/; per the spec (Shortcut Store
applyTo, section 4.3) it iterates over every live action and sets its
effective shortcut to the stored value when its id is present in the
persisted mapping, and to its default shortcut otherwise. -/
def applyShortcutsTo (store : ShortcutStore) (c : Collection) : Collection :=
  c.map fun p => (p.1, resolveShortcut store p.1 p.2)

/-- m_collection.readSettings(m_shortcuts), logged. -/
def readSettings (st : AppState) : AppState :=
  { st with
      collection := applyShortcutsTo st.shortcuts st.collection
      log := st.log ++ [Event.readShortcuts] }

/-- The compiled-in catalog of static actions, one entry per if-block of
Application::setupActions, in source order. -/
def catalog : List CatalogEntry :=
  [ { id := "screenshot", text := "Screenshot", icon := some "image-x-generic",
      shortcut := Qt.Key_S },
    { id := "file_quit", text := "Quit", icon := some "application-exit",
      shortcut := Qt.CTRL + Qt.Key_Q },
    { id := "options_configure_keybinding", text := "Configure Keyboard Shortcuts",
      icon := some "configure-shortcuts", shortcut := Qt.CTRL + Qt.SHIFT + Qt.Key_S },
    { id := "configure", text := "Configure", icon := some "configure",
      shortcut := Qt.CTRL + Qt.SHIFT + Qt.Key_Comma },
    { id := "togglePlaylist", text := "Playlist", icon := some "view-media-playlist",
      shortcut := Qt.Key_P },
    { id := "openContextMenu", text := "Open Context Menu", icon := some "application-menu",
      shortcut := Qt.Key_Menu },
    { id := "toggleFullscreen", text := "Toggle Fullscreen", icon := some "view-fullscreen",
      shortcut := Qt.Key_F },
    { id := "openFile", text := "Open File", icon := some "folder-videos",
      shortcut := Qt.CTRL + Qt.Key_O },
    { id := "openUrl", text := "Open Url", icon := some "internet-services",
      shortcut := Qt.CTRL + Qt.SHIFT + Qt.Key_O },
    { id := "aboutHaruna", text := "About Haruna", icon := some "help-about",
      shortcut := Qt.Key_F1 },
    { id := "contrastUp", text := "Contrast Up", icon := some "contrast",
      shortcut := Qt.Key_1 },
    { id := "contrastDown", text := "Contrast Down", icon := some "contrast",
      shortcut := Qt.Key_2 },
    { id := "contrastReset", text := "Contrast Reset", icon := some "contrast",
      shortcut := Qt.CTRL + Qt.Key_1 },
    { id := "brightnessUp", text := "Brightness Up", icon := some "contrast",
      shortcut := Qt.Key_3 },
    { id := "brightnessDown", text := "Brightness Down", icon := some "contrast",
      shortcut := Qt.Key_4 },
    { id := "brightnessReset", text := "Brightness Reset", icon := some "contrast",
      shortcut := Qt.CTRL + Qt.Key_3 },
    { id := "gammaUp", text := "Gamma Up", icon := some "contrast",
      shortcut := Qt.Key_5 },
    { id := "gammaDown", text := "Gamma Down", icon := some "contrast",
      shortcut := Qt.Key_6 },
    { id := "gammaReset", text := "Gamma Reset", icon := some "contrast",
      shortcut := Qt.CTRL + Qt.Key_5 },
    { id := "saturationUp", text := "Saturation Up", icon := some "contrast",
      shortcut := Qt.Key_7 },
    { id := "saturationDown", text := "Saturation Down", icon := some "contrast",
      shortcut := Qt.Key_8 },
    { id := "saturationReset", text := "Saturation Reset", icon := some "contrast",
      shortcut := Qt.CTRL + Qt.Key_7 },
    { id := "playNext", text := "Play Next", icon := some "media-skip-forward",
      shortcut := Qt.SHIFT + Qt.Key_Period },
    { id := "playPrevious", text := "Play Previous", icon := some "media-skip-backward",
      shortcut := Qt.SHIFT + Qt.Key_Comma },
    { id := "volumeUp", text := "Volume Up", icon := some "audio-volume-high",
      shortcut := Qt.Key_9 },
    { id := "volumeDown", text := "Volume Down", icon := some "audio-volume-low",
      shortcut := Qt.Key_0 },
    { id := "mute", text := "Mute", icon := some "player-volume",
      shortcut := Qt.Key_M },
    { id := "seekForwardSmall", text := "Seek Small Step Forward",
      icon := some "media-seek-forward", shortcut := Qt.Key_Right },
    { id := "seekBackwardSmall", text := "Seek Small Step Backward",
      icon := some "media-seek-backward", shortcut := Qt.Key_Left },
    { id := "seekForwardMedium", text := "Seek Medium Step Forward",
      icon := some "media-seek-forward", shortcut := Qt.SHIFT + Qt.Key_Right },
    { id := "seekBackwardMedium", text := "Seek Medium Step Backward",
      icon := some "media-seek-backward", shortcut := Qt.SHIFT + Qt.Key_Left },
    { id := "seekForwardBig", text := "Seek Big Step Forward",
      icon := some "media-seek-forward", shortcut := Qt.Key_Up },
    { id := "seekBackwardBig", text := "Seek Big Step Backward",
      icon := some "media-seek-backward", shortcut := Qt.Key_Down },
    { id := "seekPreviousChapter", text := "Seek Previous Chapter",
      icon := some "media-seek-backward", shortcut := Qt.Key_PageDown },
    { id := "seekNextChapter", text := "Seek Next Chapter",
      icon := some "media-seek-forward", shortcut := Qt.Key_PageUp },
    { id := "seekNextSubtitle", text := "Seek To Next Subtitle",
      icon := some "media-seek-forward", shortcut := Qt.CTRL + Qt.Key_Right },
    { id := "seekPreviousSubtitle", text := "Seek To Previous Subtitle",
      icon := some "media-seek-backward", shortcut := Qt.CTRL + Qt.Key_Left },
    { id := "frameStep", text := "Move one frame forward, then pause",
      icon := none, shortcut := Qt.Key_Period },
    { id := "frameBackStep", text := "Move one frame backward, then pause",
      icon := none, shortcut := Qt.Key_Comma },
    { id := "increasePlayBackSpeed", text := "Playback speed increase",
      icon := none, shortcut := Qt.Key_BracketRight },
    { id := "decreasePlayBackSpeed", text := "Playback speed decrease",
      icon := none, shortcut := Qt.Key_BracketLeft },
    { id := "resetPlayBackSpeed", text := "Playback speed reset",
      icon := none, shortcut := Qt.Key_Backspace },
    { id := "subtitleQuicken", text := "Subtitle Quicken",
      icon := none, shortcut := Qt.Key_Z },
    { id := "subtitleDelay", text := "Subtitle Delay",
      icon := none, shortcut := Qt.SHIFT + Qt.Key_Z },
    { id := "subtitleToggle", text := "Subtitle Toggle",
      icon := none, shortcut := Qt.CTRL + Qt.Key_S },
    { id := "audioCycleUp", text := "Cycle Audio Up",
      icon := none, shortcut := Qt.SHIFT + Qt.Key_3 },
    { id := "audioCycleDown", text := "Cycle Audio Down",
      icon := none, shortcut := Qt.SHIFT + Qt.Key_2 },
    { id := "subtitleCycleUp", text := "Cycle Subtitle Up",
      icon := none, shortcut := Qt.Key_J },
    { id := "subtitleCycleDown", text := "Cycle Subtitle Down",
      icon := none, shortcut := Qt.SHIFT + Qt.Key_J },
    { id := "zoomIn", text := "Zoom In", icon := some "zoom-in",
      shortcut := Qt.ALT + Qt.Key_Plus },
    { id := "zoomOut", text := "Zoom Out", icon := some "zoom-out",
      shortcut := Qt.ALT + Qt.Key_Minus },
    { id := "zoomReset", text := "Zoom Reset", icon := some "zoom-original",
      shortcut := Qt.ALT + Qt.Key_Backspace },
    { id := "videoPanXLeft", text := "Video pan x left",
      icon := none, shortcut := Qt.ALT + Qt.Key_Left },
    { id := "videoPanXRight", text := "Video pan x right",
      icon := none, shortcut := Qt.ALT + Qt.Key_Right },
    { id := "videoPanYUp", text := "Video pan y up",
      icon := none, shortcut := Qt.ALT + Qt.Key_Up },
    { id := "videoPanYDown", text := "Video pan y down",
      icon := none, shortcut := Qt.ALT + Qt.Key_Down },
    { id := "toggleMenuBar", text := "Toggle Menu Bar",
      icon := none, shortcut := Qt.CTRL + Qt.Key_M },
    { id := "toggleHeader", text := "Toggle Header",
      icon := none, shortcut := Qt.CTRL + Qt.Key_H },
    { id := "setLoop", text := "Set Loop",
      icon := none, shortcut := Qt.Key_L },
    { id := "increaseSubtitleFontSize", text := "Increase Subtitle Font Size",
      icon := none, shortcut := Qt.CTRL + Qt.Key_Z },
    { id := "decreaseSubtitleFontSize", text := "Decrease Subtitle Font Size",
      icon := none, shortcut := Qt.CTRL + Qt.Key_X },
    { id := "subtitlePositionUp", text := "Move Subtitle Up",
      icon := none, shortcut := Qt.Key_R },
    { id := "subtitlePositionDown", text := "Move Subtitle Down",
      icon := none, shortcut := Qt.SHIFT + Qt.Key_R },
    { id := "toggleDeinterlacing", text := "Toggle deinterlacing",
      icon := none, shortcut := Qt.Key_D },
    { id := "exitFullscreen", text := "Exit Fullscreen",
      icon := none, shortcut := Qt.Key_Escape } ]

/-- The HAction built by one matching if-block of setupActions: text and
icon set from the catalog entry; setDefaultShortcut sets both the
default and the initially active shortcut. -/
def mkCatalogAction (e : CatalogEntry) : HAction :=
  { text := e.text, icon := e.icon,
    defaultShortcut := some e.shortcut, effectiveShortcut := some e.shortcut }

/-- One if-block of Application::setupActions: when the tested catalog
entry's id equals actionName, build the action and add it to the
collection; otherwise leave the state unchanged. -/
def setupActionsStep (actionName : String) (st : AppState) (e : CatalogEntry) : AppState :=
  if e.id = actionName then addAction st actionName (mkCatalogAction e) else st

/-- Application::setupActions(actionName): run every if-block of the
chain in source order, then unconditionally m_collection.readSettings(m_shortcuts). -/
def setupActions (st : AppState) (actionName : String) : AppState :=
  readSettings (catalog.foldl (setupActionsStep actionName) st)

/-- Application::action(name): look the id up in the live collection;
when absent, run setupActions(name) and look it up again; return the
result of the lookup. -/
def Application.action (st : AppState) (name : String) : Option HAction × AppState :=
  match collectionAction st.collection name with
  | some a => (some a, st)
  | none =>
      let st' := setupActions st name
      (collectionAction st'.collection name, st')

/-- Application::createUserAction(text): read Counter (default 0) from
the custom-commands config, build the id "Command_<counter>", create a
plain HAction with the given text, add it, and re-read the Shortcut
Store. The config is only read, never written. -/
def createUserAction (st : AppState) (text : String) : AppState :=
  let counter := readCounter st.customCommands
  let name := "Command_" ++ toString counter
  readSettings (addAction st name (mkPlainAction text))

/-- One loop iteration of Application::setupUserActions: read the
group's Command entry; when its Type entry equals "shortcut", create a
plain HAction with the command as text and add it under the group
name. -/
def setupUserActionsStep (st : AppState) (g : ConfigGroup) : AppState :=
  let command := groupReadEntry g "Command"
  if groupReadEntry g "Type" = "shortcut" then
    addAction st g.name (mkPlainAction command)
  else st

/-- Application::setupUserActions: iterate over every group of the
custom-commands config, then m_collection.readSettings(m_shortcuts). -/
def setupUserActions (st : AppState) : AppState :=
  readSettings (st.customCommands.groups.foldl setupUserActionsStep st)

/-- The add events the setupUserActions loop performs, one per group
whose Type entry is "shortcut": id is the group name, text is the
group's Command entry. -/
def userActionAdds (groups : List ConfigGroup) : List Event :=
  groups.filterMap fun g =>
    if groupReadEntry g "Type" = "shortcut" then
      some (Event.add g.name (groupReadEntry g "Command"))
    else none

/-- Observable events of one run of the worker thread: execution of the
i-th queued work item, the thread's finished signal, and the two
deferred deletions wired up in Application::setupWorkerThread. -/
inductive WorkerEvent where
  | workExecuted (i : Nat)
  | threadFinished
  | workerDeleted
  | threadDeleted
deriving DecidableEq

/-- The deferred cleanup actions Application::setupWorkerThread connects
to the thread's finished signal, in connection order: first
worker->deleteLater, then thread->deleteLater. -/
def workerThreadCleanups : List WorkerEvent :=
  [WorkerEvent.workerDeleted, WorkerEvent.threadDeleted]

/-- Modelled from the spec: the Qt execution semantics behind
setupWorkerThread (QThread::finished firing only after the work queued
on the thread has drained, deleteLater deferring the deletions past that
point, and slots of one signal running in connection order) are
framework code absent from src/; per the spec (section 4.4) a run that
starts the dispatcher, executes k queued work items and then shuts down
produces the work events, then the finished signal, then the connected
cleanups in connection order. -/
def workerRunTrace (k : Nat) : List WorkerEvent :=
  ((List.range k).map WorkerEvent.workExecuted)
    ++ [WorkerEvent.threadFinished] ++ workerThreadCleanups

/-- Position of the first occurrence of an event in a worker run trace
(none when the event never occurs), used to state ordering
properties. -/
def firstIndexOf : List WorkerEvent → WorkerEvent → Option Nat
  | [], _ => none
  | x :: xs, e => if x = e then some 0 else (firstIndexOf xs e).map (· + 1)

/-- The statements of the Application constructor, in source order; the
two DBus registration calls carry the boolean success flag they
return. -/
inductive StartupStep where
  | userActionsLoaded
  | serviceRegistered (ok : Bool)
  | objectRegistered (ok : Bool)
  | mediaPlayer2Created
  | styleConfigured
  | localeSet
  | workerThreadStarted
  | aboutDataSet
  | commandLineParsed
  | qmlTypesRegistered
  | qmlSettingsTypesRegistered
  | engineCreated
  | qmlLoaded
deriving DecidableEq

/-- The kind of a startup step with its success flag erased, used to
state that the constructor's control flow does not depend on the
registration results. -/
def StartupStep.kind : StartupStep → Nat
  | .userActionsLoaded => 0
  | .serviceRegistered _ => 1
  | .objectRegistered _ => 2
  | .mediaPlayer2Created => 3
  | .styleConfigured => 4
  | .localeSet => 5
  | .workerThreadStarted => 6
  | .aboutDataSet => 7
  | .commandLineParsed => 8
  | .qmlTypesRegistered => 9
  | .qmlSettingsTypesRegistered => 10
  | .engineCreated => 11
  | .qmlLoaded => 12

/-- The Application constructor body as a sequence of steps
(Application::Application): the registerService / registerObject return
values (true when the session bus is available) are recorded but never
branched on, and the constructor runs to the QML load (the interactive
state) regardless. -/
def constructorTrace (busAvailable : Bool) : List StartupStep :=
  [ StartupStep.userActionsLoaded,
    StartupStep.serviceRegistered busAvailable,
    StartupStep.objectRegistered busAvailable,
    StartupStep.mediaPlayer2Created,
    StartupStep.styleConfigured,
    StartupStep.localeSet,
    StartupStep.workerThreadStarted,
    StartupStep.aboutDataSet,
    StartupStep.commandLineParsed,
    StartupStep.qmlTypesRegistered,
    StartupStep.qmlSettingsTypesRegistered,
    StartupStep.engineCreated,
    StartupStep.qmlLoaded ]

/-- The per-action correctness condition of a shortcut merge pass: an
action whose id is stored has the stored value as effective shortcut; an
action whose id is absent falls back to its default shortcut. -/
def shortcutResolved (store : ShortcutStore) (p : String × HAction) : Prop :=
  match storeLookup store p.1 with
  | some v => p.2.effectiveShortcut = some v
  | none => p.2.effectiveShortcut = p.2.defaultShortcut

instance (store : ShortcutStore) (p : String × HAction) :
    Decidable (shortcutResolved store p) := by
  unfold shortcutResolved
  match storeLookup store p.1 with
  | some v => exact inferInstanceAs (Decidable (_ = _))
  | none => exact inferInstanceAs (Decidable (_ = _))

/- Helper lemmas about the collection and the merge pass. -/

theorem collectionAction_collectionAdd_self (c : Collection) (name : String) (a : HAction) :
    collectionAction (collectionAdd c name a) name = some a := by
  induction c with
  | nil => simp [collectionAdd, collectionAction]
  | cons p rest ih =>
      obtain ⟨k, b⟩ := p
      by_cases h : k = name
      · simp [collectionAdd, collectionAction, h]
      · simp [collectionAdd, collectionAction, h, ih]

theorem collectionAction_applyShortcutsTo (store : ShortcutStore) (c : Collection)
    (name : String) :
    collectionAction (applyShortcutsTo store c) name =
      (collectionAction c name).map (resolveShortcut store name) := by
  induction c with
  | nil => simp [applyShortcutsTo, collectionAction]
  | cons p rest ih =>
      obtain ⟨k, b⟩ := p
      by_cases h : k = name
      · subst h
        simp [applyShortcutsTo, collectionAction]
      · simpa [applyShortcutsTo, collectionAction, h] using ih

theorem applyShortcutsTo_keys (store : ShortcutStore) (c : Collection) :
    (applyShortcutsTo store c).map Prod.fst = c.map Prod.fst := by
  simp [applyShortcutsTo]

theorem shortcutResolved_of_mem_applyShortcutsTo (store : ShortcutStore) (c : Collection)
    (p : String × HAction) (hp : p ∈ applyShortcutsTo store c) :
    shortcutResolved store p := by
  simp only [applyShortcutsTo, List.mem_map] at hp
  obtain ⟨q, _, rfl⟩ := hp
  unfold shortcutResolved resolveShortcut
  cases h : storeLookup store q.1 <;> simp [h]

theorem foldl_setupActionsStep_of_no_match (name : String) (l : List CatalogEntry)
    (st : AppState) (h : ∀ e ∈ l, e.id ≠ name) :
    l.foldl (setupActionsStep name) st = st := by
  induction l generalizing st with
  | nil => rfl
  | cons x xs ih =>
      have hx : x.id ≠ name := h x (List.mem_cons_self x xs)
      have hxs : ∀ e ∈ xs, e.id ≠ name := fun e he => h e (List.mem_cons_of_mem x he)
      simp [List.foldl_cons, setupActionsStep, hx, ih _ hxs]

theorem no_match_of_foldl_lookup_none (name : String) (l : List CatalogEntry)
    (st : AppState)
    (h : collectionAction (l.foldl (setupActionsStep name) st).collection name = none) :
    collectionAction st.collection name = none ∧ ∀ e ∈ l, e.id ≠ name := by
  induction l generalizing st with
  | nil => exact ⟨h, by simp⟩
  | cons x xs ih =>
      rw [List.foldl_cons] at h
      obtain ⟨h1, h2⟩ := ih (setupActionsStep name st x) h
      by_cases hx : x.id = name
      · exfalso
        rw [setupActionsStep, if_pos hx] at h1
        simp [addAction, collectionAction_collectionAdd_self] at h1
      · rw [setupActionsStep, if_neg hx] at h1
        refine ⟨h1, fun e he => ?_⟩
        rcases List.mem_cons.mp he with rfl | hmem
        · exact hx
        · exact h2 e hmem

theorem foldl_setupActionsStep_of_match (name : String) (l : List CatalogEntry)
    (st : AppState) (e : CatalogEntry) (hnd : (l.map CatalogEntry.id).Nodup)
    (he : e ∈ l) (hid : e.id = name) :
    l.foldl (setupActionsStep name) st = addAction st name (mkCatalogAction e) := by
  induction l generalizing st with
  | nil => cases he
  | cons x xs ih =>
      rw [List.map_cons, List.nodup_cons] at hnd
      obtain ⟨hx_notin, hxs_nd⟩ := hnd
      rcases List.mem_cons.mp he with rfl | hmem
      · rw [List.foldl_cons, setupActionsStep, if_pos hid]
        refine foldl_setupActionsStep_of_no_match name xs _ fun y hy hyname => ?_
        exact hx_notin (hid ▸ hyname ▸ List.mem_map_of_mem CatalogEntry.id hy)
      · have hx : x.id ≠ name := by
          intro hxname
          exact hx_notin (hxname ▸ hid ▸ List.mem_map_of_mem CatalogEntry.id hmem)
        rw [List.foldl_cons, setupActionsStep, if_neg hx]
        exact ih st hxs_nd hmem

theorem catalog_ids_nodup : (catalog.map CatalogEntry.id).Nodup := by decide

theorem foldl_setupUserActionsStep_log (l : List ConfigGroup) (st : AppState) :
    (l.foldl setupUserActionsStep st).log = st.log ++ userActionAdds l := by
  induction l generalizing st with
  | nil => simp [userActionAdds]
  | cons g gs ih =>
      rw [List.foldl_cons]
      by_cases hg : groupReadEntry g "Type" = "shortcut"
      · rw [ih]
        simp [setupUserActionsStep, hg, addAction, userActionAdds, mkPlainAction]
      · rw [ih]
        simp [setupUserActionsStep, hg, userActionAdds]

theorem foldl_setupActionsStep_shortcuts (name : String) (l : List CatalogEntry)
    (st : AppState) :
    (l.foldl (setupActionsStep name) st).shortcuts = st.shortcuts := by
  induction l generalizing st with
  | nil => rfl
  | cons x xs ih =>
      rw [List.foldl_cons, ih]
      by_cases hx : x.id = name <;> simp [setupActionsStep, hx, addAction]

theorem foldl_setupUserActionsStep_shortcuts (l : List ConfigGroup) (st : AppState) :
    (l.foldl setupUserActionsStep st).shortcuts = st.shortcuts := by
  induction l generalizing st with
  | nil => rfl
  | cons g gs ih =>
      rw [List.foldl_cons, ih]
      by_cases hg : groupReadEntry g "Type" = "shortcut" <;>
        simp [setupUserActionsStep, hg, addAction]

theorem userActionAdds_length (l : List ConfigGroup) :
    (userActionAdds l).length =
      l.countP (fun g => decide (groupReadEntry g "Type" = "shortcut")) := by
  unfold userActionAdds
  induction l with
  | nil => rfl
  | cons g gs ih =>
      rw [List.filterMap_cons, List.countP_cons]
      by_cases hg : groupReadEntry g "Type" = "shortcut"
      · simp [hg, ih]
      · simp [hg, ih]

theorem firstIndexOf_eq_none_iff (tr : List WorkerEvent) (e : WorkerEvent) :
    firstIndexOf tr e = none ↔ e ∉ tr := by
  induction tr with
  | nil => simp [firstIndexOf]
  | cons x xs ih =>
      by_cases hx : x = e
      · subst hx
        simp [firstIndexOf]
      · simp [firstIndexOf, hx, Option.map_eq_none', ih, List.mem_cons, Ne.symm hx]

theorem firstIndexOf_append_some (l₁ l₂ : List WorkerEvent) (e : WorkerEvent) (n : Nat)
    (h : firstIndexOf l₁ e = some n) :
    firstIndexOf (l₁ ++ l₂) e = some n := by
  induction l₁ generalizing n with
  | nil => simp [firstIndexOf] at h
  | cons x xs ih =>
      rw [List.cons_append]
      unfold firstIndexOf at h ⊢
      by_cases hx : x = e
      · rwa [if_pos hx] at h ⊢
      · rw [if_neg hx] at h ⊢
        cases hxs : firstIndexOf xs e with
        | none => rw [hxs] at h; simp at h
        | some m =>
            rw [hxs] at h
            rw [ih m hxs]
            simpa using h

theorem firstIndexOf_cons (x : WorkerEvent) (xs : List WorkerEvent) (e : WorkerEvent) :
    firstIndexOf (x :: xs) e =
      if x = e then some 0 else (firstIndexOf xs e).map (· + 1) := rfl

theorem firstIndexOf_append_none (l₁ l₂ : List WorkerEvent) (e : WorkerEvent)
    (h : firstIndexOf l₁ e = none) :
    firstIndexOf (l₁ ++ l₂) e = (firstIndexOf l₂ e).map (· + l₁.length) := by
  induction l₁ with
  | nil => simp
  | cons x xs ih =>
      rw [firstIndexOf_cons] at h
      by_cases hx : x = e
      · rw [if_pos hx] at h
        simp at h
      · rw [if_neg hx] at h
        have hxs : firstIndexOf xs e = none := by
          cases hfi : firstIndexOf xs e with
          | none => rfl
          | some m => rw [hfi] at h; simp at h
        rw [List.cons_append, firstIndexOf_cons, if_neg hx, ih hxs]
        cases hl : firstIndexOf l₂ e with
        | none => simp
        | some m =>
            simp only [Option.map_some', List.length_cons, Option.some.injEq]
            omega

theorem firstIndexOf_work_items (k i : Nat) (h : i < k) :
    firstIndexOf ((List.range k).map WorkerEvent.workExecuted)
      (WorkerEvent.workExecuted i) = some i := by
  induction k with
  | zero => omega
  | succ k ih =>
      rw [List.range_succ, List.map_append]
      by_cases hik : i < k
      · exact firstIndexOf_append_some _ _ _ _ (ih hik)
      · have hieq : i = k := by omega
        subst hieq
        have hnone : firstIndexOf ((List.range i).map WorkerEvent.workExecuted)
            (WorkerEvent.workExecuted i) = none := by
          rw [firstIndexOf_eq_none_iff]
          simp only [List.mem_map, List.mem_range, not_exists, not_and]
          intro a ha hcontra
          cases hcontra
          omega
        rw [firstIndexOf_append_none _ _ _ hnone]
        simp [firstIndexOf]

theorem firstIndexOf_work_items_not_work (k : Nat) (e : WorkerEvent)
    (he : ∀ i, e ≠ WorkerEvent.workExecuted i) :
    firstIndexOf ((List.range k).map WorkerEvent.workExecuted) e = none := by
  rw [firstIndexOf_eq_none_iff]
  simp only [List.mem_map, List.mem_range, not_exists, not_and]
  intro a _ hcontra
  exact he a hcontra.symm

/- Claim theorems. -/

/-- C1: resolving the same action id twice in a row returns the same
action both times — the second call returns exactly what the first did,
and when the id is already in the live collection the existing action is
returned with the state unchanged (so a second call after a creating
call returns the action the first call created). -/
theorem action_resolution_idempotent (st : AppState) (name : String) :
    (Application.action ((Application.action st name).2) name).1 =
      (Application.action st name).1
    ∧ (∀ a : HAction, collectionAction st.collection name = some a →
        Application.action st name = (some a, st)) := by
  constructor
  · cases h : collectionAction st.collection name with
    | some a => simp [Application.action, h]
    | none =>
        cases h1 : collectionAction (setupActions st name).collection name with
        | some a => simp [Application.action, h, h1]
        | none =>
            have hfold : collectionAction
                (catalog.foldl (setupActionsStep name) st).collection name = none := by
              have h2 := h1
              unfold setupActions readSettings at h2
              rw [collectionAction_applyShortcutsTo] at h2
              exact Option.map_eq_none'.mp h2
            obtain ⟨-, hno⟩ := no_match_of_foldl_lookup_none name catalog st hfold
            have e3 : ∀ st2 : AppState, collectionAction st2.collection name = none →
                collectionAction (setupActions st2 name).collection name = none := by
              intro st2 h2
              unfold setupActions readSettings
              rw [foldl_setupActionsStep_of_no_match name catalog st2 hno,
                collectionAction_applyShortcutsTo, h2]
              rfl
            have e1 : Application.action st name = (none, setupActions st name) := by
              simp [Application.action, h, h1]
            have e2 : Application.action (setupActions st name) name =
                (collectionAction (setupActions (setupActions st name) name).collection name,
                 setupActions (setupActions st name) name) := by
              simp [Application.action, h1]
            rw [e1]
            show (Application.action (setupActions st name) name).1 = none
            rw [e2]
            exact e3 _ h1
  · intro a ha
    simp [Application.action, ha]

/-- C1 witness: with an action already registered under the id "custom",
resolving "custom" returns that action and leaves the state
unchanged. -/
theorem action_resolution_idempotent_witness :
    Application.action
        { collection := [("custom", mkPlainAction "hello")], shortcuts := [],
          customCommands := { counter := none, groups := [] }, log := [] } "custom" =
      (some (mkPlainAction "hello"),
        { collection := [("custom", mkPlainAction "hello")], shortcuts := [],
          customCommands := { counter := none, groups := [] }, log := [] }) :=
  (action_resolution_idempotent
      { collection := [("custom", mkPlainAction "hello")], shortcuts := [],
        customCommands := { counter := none, groups := [] }, log := [] } "custom").2
    (mkPlainAction "hello") (by decide)

/-- C2: after any resolution pass — setupActions, createUserAction and
setupUserActions each end by re-reading the Shortcut Store — every live
action whose id is stored has the stored value as effective shortcut,
and every live action whose id is absent from the store has its default
shortcut as effective shortcut. -/
theorem merge_pass_resolves_all_shortcuts (st : AppState) (name text : String) :
    (∀ p ∈ (setupActions st name).collection, shortcutResolved st.shortcuts p)
    ∧ (∀ p ∈ (createUserAction st text).collection, shortcutResolved st.shortcuts p)
    ∧ (∀ p ∈ (setupUserActions st).collection, shortcutResolved st.shortcuts p) := by
  refine ⟨fun p hp => ?_, fun p hp => ?_, fun p hp => ?_⟩
  · unfold setupActions readSettings at hp
    rw [foldl_setupActionsStep_shortcuts] at hp
    exact shortcutResolved_of_mem_applyShortcutsTo _ _ p hp
  · unfold createUserAction readSettings at hp
    simp only [addAction] at hp
    exact shortcutResolved_of_mem_applyShortcutsTo _ _ p hp
  · unfold setupUserActions readSettings at hp
    rw [foldl_setupUserActionsStep_shortcuts] at hp
    exact shortcutResolved_of_mem_applyShortcutsTo _ _ p hp

/-- C2 witness: after resolving "screenshot" in a state where the live
action "file_quit" has the stored override 42, that pre-existing action
carries the stored value as its effective shortcut. -/
theorem merge_pass_resolves_all_shortcuts_witness :
    shortcutResolved [("file_quit", 42)]
      ("file_quit",
        { text := "Stale", icon := none, defaultShortcut := none,
          effectiveShortcut := some 42 }) :=
  (merge_pass_resolves_all_shortcuts
      { collection := [("file_quit", mkPlainAction "Stale")],
        shortcuts := [("file_quit", 42)],
        customCommands := { counter := none, groups := [] }, log := [] }
      "screenshot" "unused").1
    ("file_quit",
      { text := "Stale", icon := none, defaultShortcut := none,
        effectiveShortcut := some 42 })
    (by decide)

/-- C3: resolving an id that matches neither a live action nor any
catalog entry returns no action. -/
theorem action_unknown_id_returns_none (st : AppState) (name : String)
    (hlive : collectionAction st.collection name = none)
    (hcat : ∀ e ∈ catalog, e.id ≠ name) :
    (Application.action st name).1 = none := by
  have hfold := foldl_setupActionsStep_of_no_match name catalog st hcat
  simp [Application.action, hlive, setupActions, hfold, readSettings,
    collectionAction_applyShortcutsTo]

/-- C3 witness: resolving "noSuchAction" on the empty registry returns
no action. -/
theorem action_unknown_id_returns_none_witness :
    (Application.action
        { collection := [], shortcuts := [],
          customCommands := { counter := none, groups := [] }, log := [] }
        "noSuchAction").1 = none :=
  action_unknown_id_returns_none
    { collection := [], shortcuts := [],
      customCommands := { counter := none, groups := [] }, log := [] }
    "noSuchAction" (by decide) (by decide)

/-- C4: createUserAction reads the persisted Counter (default 0 when
absent), registers an action whose id is "Command_" followed by that
value and whose text is the given text, re-reads the Shortcut Store, and
leaves the persisted custom-commands config — Counter included —
unchanged; in particular with Counter = 5 the id is "Command_5". -/
theorem createUserAction_uses_persisted_counter (st : AppState) (text : String) :
    (createUserAction st text).log =
      st.log ++ [Event.add ("Command_" ++ toString (readCounter st.customCommands)) text,
                 Event.readShortcuts]
    ∧ collectionAction (createUserAction st text).collection
        ("Command_" ++ toString (readCounter st.customCommands)) =
      some (resolveShortcut st.shortcuts
              ("Command_" ++ toString (readCounter st.customCommands))
              (mkPlainAction text))
    ∧ (createUserAction st text).customCommands = st.customCommands
    ∧ (st.customCommands.counter = some 5 →
        (createUserAction st text).log =
          st.log ++ [Event.add "Command_5" text, Event.readShortcuts]) := by
  have hlog : (createUserAction st text).log =
      st.log ++ [Event.add ("Command_" ++ toString (readCounter st.customCommands)) text,
                 Event.readShortcuts] := by
    simp [createUserAction, readSettings, addAction, mkPlainAction]
  refine ⟨hlog, ?_, rfl, ?_⟩
  · unfold createUserAction readSettings
    simp only [addAction]
    rw [collectionAction_applyShortcutsTo, collectionAction_collectionAdd_self]
    rfl
  · intro h
    rw [hlog]
    have hc : readCounter st.customCommands = 5 := by rw [readCounter, h]; rfl
    rw [hc]
    have hs : "Command_" ++ toString (5 : Nat) = "Command_5" := by decide
    rw [hs]

/-- C4 witness: with persisted Counter = 5, creating a custom command
with text "do-it" logs the registration of the id "Command_5". -/
theorem createUserAction_uses_persisted_counter_witness :
    (createUserAction
        { collection := [], shortcuts := [],
          customCommands := { counter := some 5, groups := [] }, log := [] }
        "do-it").log =
      [Event.add "Command_5" "do-it", Event.readShortcuts] :=
  (createUserAction_uses_persisted_counter
      { collection := [], shortcuts := [],
        customCommands := { counter := some 5, groups := [] }, log := [] }
      "do-it").2.2.2 (by decide)

/-- C5 (failing run): createUserAction reads the persisted Counter but
never increments or writes it back, so two consecutive custom-command
creations both generate the id "Command_0" — two created custom
commands share an id and the persisted Counter is still absent
afterwards, contradicting the monotone generated-identity invariant. -/
theorem createUserAction_reuses_generated_id :
    (createUserAction (createUserAction
        { collection := [], shortcuts := [],
          customCommands := { counter := none, groups := [] }, log := [] }
        "first") "second").log =
      [Event.add "Command_0" "first", Event.readShortcuts,
       Event.add "Command_0" "second", Event.readShortcuts]
    ∧ (createUserAction (createUserAction
        { collection := [], shortcuts := [],
          customCommands := { counter := none, groups := [] }, log := [] }
        "first") "second").customCommands =
      { counter := none, groups := [] } := by
  constructor
  · rfl
  · rfl

/-- C6: setupUserActions performs exactly one registration per persisted
group whose Type entry is the literal "shortcut" — using the group name
as action id and the group's Command entry as display text — followed by
one Shortcut Store re-read; groups with any other Type value produce no
registration, so the number of add events equals the number of
"shortcut"-tagged groups. -/
theorem setupUserActions_registers_shortcut_groups (st : AppState) :
    (setupUserActions st).log =
      st.log ++ userActionAdds st.customCommands.groups ++ [Event.readShortcuts]
    ∧ (userActionAdds st.customCommands.groups).length =
        st.customCommands.groups.countP
          (fun g => decide (groupReadEntry g "Type" = "shortcut")) := by
  constructor
  · unfold setupUserActions readSettings
    rw [foldl_setupUserActionsStep_log, List.append_assoc]
  · exact userActionAdds_length st.customCommands.groups

/-- C7: a resolution that creates a brand-new catalog action re-applies
the persisted Shortcut Store to the entire live collection after the
insertion: the final state is the old state with the new action added
and the merge re-applied to every entry (old entries included), and the
log records the add followed by the store re-read. -/
theorem action_creation_reapplies_shortcuts (st : AppState) (name : String)
    (e : CatalogEntry) (hlive : collectionAction st.collection name = none)
    (he : e ∈ catalog) (hid : e.id = name) :
    (Application.action st name).2 =
      { st with
          collection :=
            applyShortcutsTo st.shortcuts
              (collectionAdd st.collection name (mkCatalogAction e)),
          log := st.log ++ [Event.add name e.text, Event.readShortcuts] } := by
  have hfold := foldl_setupActionsStep_of_match name catalog st e
    catalog_ids_nodup he hid
  simp [Application.action, hlive, setupActions, hfold, readSettings, addAction,
    mkCatalogAction]

/-- C7 witness: resolving "screenshot" with a stale "mute" action live
re-applies the stored overrides to both the new action and the
pre-existing one. -/
theorem action_creation_reapplies_shortcuts_witness :
    (Application.action
        { collection := [("mute", mkPlainAction "Mute")],
          shortcuts := [("mute", 77), ("screenshot", 42)],
          customCommands := { counter := none, groups := [] }, log := [] }
        "screenshot").2 =
      { collection :=
          applyShortcutsTo [("mute", 77), ("screenshot", 42)]
            (collectionAdd [("mute", mkPlainAction "Mute")] "screenshot"
              (mkCatalogAction
                { id := "screenshot", text := "Screenshot",
                  icon := some "image-x-generic", shortcut := Qt.Key_S })),
        shortcuts := [("mute", 77), ("screenshot", 42)],
        customCommands := { counter := none, groups := [] },
        log := [Event.add "screenshot" "Screenshot", Event.readShortcuts] } :=
  action_creation_reapplies_shortcuts
    { collection := [("mute", mkPlainAction "Mute")],
      shortcuts := [("mute", 77), ("screenshot", 42)],
      customCommands := { counter := none, groups := [] }, log := [] }
    "screenshot"
    { id := "screenshot", text := "Screenshot",
      icon := some "image-x-generic", shortcut := Qt.Key_S }
    (by decide) (by decide) (by decide)

/-- C8: in every run of the worker thread that executes its queued work
and shuts down, the first (and only) occurrences of the two cleanup
deletions sit at the end of the trace: every executed work item (and the
finished signal itself) strictly precedes the worker deletion, which
strictly precedes the thread deletion. -/
theorem workerRun_cleanup_ordering (k i : Nat) (h : i < k) :
    firstIndexOf (workerRunTrace k) (WorkerEvent.workExecuted i) = some i
    ∧ firstIndexOf (workerRunTrace k) WorkerEvent.threadFinished = some k
    ∧ firstIndexOf (workerRunTrace k) WorkerEvent.workerDeleted = some (k + 1)
    ∧ firstIndexOf (workerRunTrace k) WorkerEvent.threadDeleted = some (k + 2) := by
  have hwork := firstIndexOf_work_items k i h
  have hlen : ((List.range k).map WorkerEvent.workExecuted).length = k := by simp
  refine ⟨?_, ?_, ?_, ?_⟩
  · unfold workerRunTrace
    rw [List.append_assoc]
    exact firstIndexOf_append_some _ _ _ _ hwork
  · unfold workerRunTrace
    rw [List.append_assoc,
      firstIndexOf_append_none _ _ _
        (firstIndexOf_work_items_not_work k _ (fun j => by simp)), hlen]
    simp [workerThreadCleanups, firstIndexOf]
  · unfold workerRunTrace
    rw [List.append_assoc,
      firstIndexOf_append_none _ _ _
        (firstIndexOf_work_items_not_work k _ (fun j => by simp)), hlen]
    simp [workerThreadCleanups, firstIndexOf]
    omega
  · unfold workerRunTrace
    rw [List.append_assoc,
      firstIndexOf_append_none _ _ _
        (firstIndexOf_work_items_not_work k _ (fun j => by simp)), hlen]
    simp [workerThreadCleanups, firstIndexOf]
    omega

/-- C8 witness: in a run with one queued work item, the work executes at
position 0, the finished signal fires at position 1, the worker is
released at position 2 and the thread at position 3. -/
theorem workerRun_cleanup_ordering_witness :
    firstIndexOf (workerRunTrace 1) (WorkerEvent.workExecuted 0) = some 0
    ∧ firstIndexOf (workerRunTrace 1) WorkerEvent.threadFinished = some 1
    ∧ firstIndexOf (workerRunTrace 1) WorkerEvent.workerDeleted = some 2
    ∧ firstIndexOf (workerRunTrace 1) WorkerEvent.threadDeleted = some 3 :=
  workerRun_cleanup_ordering 1 0 (by decide)

/-- C9: the MPRIS service registration returns a boolean success flag
the constructor never branches on — with the session bus unavailable the
startup sequence is the same step for step, still records the failed
registration, and still reaches the QML load (the interactive state) as
its final step. -/
theorem registration_failure_does_not_abort (b : Bool) :
    (constructorTrace b).map StartupStep.kind =
      (constructorTrace true).map StartupStep.kind
    ∧ StartupStep.serviceRegistered b ∈ constructorTrace b
    ∧ StartupStep.qmlLoaded ∈ constructorTrace b
    ∧ (constructorTrace b).getLast? = some StartupStep.qmlLoaded := by
  cases b <;> decide

/-- C10: a resolution of an id that matches neither a live action nor a
catalog entry is not side-effect free: it returns no action and adds
none (the collection's ids are unchanged), yet it still re-reads the
Shortcut Store and re-applies the persisted overrides to every live
action. -/
theorem failed_resolution_still_rereads_store (st : AppState) (name : String)
    (hlive : collectionAction st.collection name = none)
    (hcat : ∀ e ∈ catalog, e.id ≠ name) :
    Application.action st name =
      (none,
        { st with
            collection := applyShortcutsTo st.shortcuts st.collection,
            log := st.log ++ [Event.readShortcuts] })
    ∧ (Application.action st name).2.collection.map Prod.fst =
        st.collection.map Prod.fst := by
  have hfold := foldl_setupActionsStep_of_no_match name catalog st hcat
  constructor
  · simp [Application.action, hlive, setupActions, hfold, readSettings,
      collectionAction_applyShortcutsTo]
  · simp [Application.action, hlive, setupActions, hfold, readSettings,
      collectionAction_applyShortcutsTo, applyShortcutsTo_keys]

/-- C10 witness: resolving the unknown id "doesNotExist" with a live
"screenshot" action and a stored override for it adds nothing but still
re-applies the stored override to the live action. -/
theorem failed_resolution_still_rereads_store_witness :
    Application.action
        { collection := [("screenshot", mkPlainAction "Screenshot")],
          shortcuts := [("screenshot", 42)],
          customCommands := { counter := none, groups := [] }, log := [] }
        "doesNotExist" =
      (none,
        { collection :=
            applyShortcutsTo [("screenshot", 42)]
              [("screenshot", mkPlainAction "Screenshot")],
          shortcuts := [("screenshot", 42)],
          customCommands := { counter := none, groups := [] },
          log := [Event.readShortcuts] }) :=
  (failed_resolution_still_rereads_store
      { collection := [("screenshot", mkPlainAction "Screenshot")],
        shortcuts := [("screenshot", 42)],
        customCommands := { counter := none, groups := [] }, log := [] }
      "doesNotExist" (by decide) (by decide)).1

end VideoPlayer
